import Mathlib

/-!
Shallow embedding of `sl_pkg.py` (sl-pkg, the source-based package manager),
with theorems checking the natural-language specification against the code.

Conventions:
* Python strings are `String` / `List Char`.
* Python `re` operations used by the code are embedded as the concrete
  character tests they perform on the given patterns (`re.match` is anchored
  at the start of the string only; `re.fullmatch` must consume the whole
  string).
* Fallible Python code (`raise`) is embedded with `Except`, carrying the
  error message raised.
-/

namespace SlPkg

/-! ### Character classes for the regexes used by `VersionNumber` -/

def isLowerAZ (c : Char) : Bool := decide ('a' ≤ c ∧ c ≤ 'z')

def isDigitCh (c : Char) : Bool := decide ('0' ≤ c ∧ c ≤ '9')

def isDelim (c : Char) : Bool := c == '.' || c == '-'

def isVersionChar (c : Char) : Bool := isDigitCh c || isLowerAZ c || isDelim c

/-- `re.compile(r"[0-9a-z\.\-]+").fullmatch(version)`: the whole string is
non-empty and consists of digits, lowercase letters, dots and dashes. -/
def fullmatchVersionChars (s : String) : Bool :=
  decide (s.data ≠ []) && s.data.all isVersionChar

/-- `re.compile(r"[\.\-]{2,}").match(version)`: `re.match` is anchored at the
start of the string, so this matches exactly when the string begins with two
consecutive delimiters. -/
def matchTwoDelimsAtStart (s : String) : Bool :=
  match s.data with
  | c1 :: c2 :: _ => isDelim c1 && isDelim c2
  | _ => false

/-- `re.compile("^[0-9]").match(version)`: the string begins with a digit. -/
def matchDigitAtStart (s : String) : Bool :=
  match s.data with
  | c :: _ => isDigitCh c
  | [] => false

/-- `VersionNumber.__init__` for a `str` argument (`src/sl_pkg.py:81-105`).
The three checks are performed in source order; note that the source raises
"Version numbers must start with a digit." when `re.match("^[0-9]")`
*succeeds*, i.e. exactly when the string does start with a digit. -/
def versionInit (version : String) : Except String String :=
  if !fullmatchVersionChars version then
    .error "Version strings must only contain digits, lowercase letters, dots, and dashes."
  else if matchTwoDelimsAtStart version then
    .error "Version numbers cannot have two or more consecutive delimiters."
  else if matchDigitAtStart version then
    .error "Version numbers must start with a digit."
  else
    .ok version

/-- One character of `VersionNumber.with_only_numbers` (`src/sl_pkg.py:173-181`):
each lowercase letter is replaced by a dot followed by `ord(char)`;
every other character is copied unchanged. -/
def expandChar (c : Char) : List Char :=
  if isLowerAZ c then '.' :: (Nat.repr c.toNat).data else [c]

/-- `VersionNumber.with_only_numbers`: build the expanded string, then pass it
back through `__class__(...)`, i.e. through `versionInit`. -/
def withOnlyNumbers (s : String) : Except String String :=
  versionInit (String.mk ((s.data.map expandChar).flatten))

/-- Split a character list at every character satisfying `p`, keeping empty
segments, as `re.split` does. -/
def splitOnPred (p : Char → Bool) : List Char → List (List Char)
  | [] => [[]]
  | c :: rest =>
    if p c then [] :: splitOnPred p rest
    else
      match splitOnPred p rest with
      | seg :: segs => (c :: seg) :: segs
      | [] => [[c]]

/-- `VersionNumber.split` (`src/sl_pkg.py:170-171`): `re.split(r"[\.\-]", ...)`. -/
def versionSplit (s : String) : List (List Char) :=
  splitOnPred isDelim s.data

/-- Python `int(s)` restricted to the strings that reach it here (segments of
a version string with letters already expanded): it succeeds on non-empty
all-digit strings and raises `ValueError` otherwise — in particular on the
empty string. -/
def pyInt (s : List Char) : Except String Nat :=
  if s.isEmpty || !s.all isDigitCh then
    .error ("invalid literal for int() with base 10: " ++ String.mk s)
  else
    .ok (s.foldl (fun acc c => acc * 10 + (c.toNat - '0'.toNat)) 0)

/-- `zip_longest(xs, ys, fillvalue=0)` over segment lists: the shorter side is
padded with the segment `"0"`. The Python fill value is the integer `0`
itself; `int("0") = 0` and `int` cannot fail on `"0"`, so padding with the
segment `"0"` yields the same comparisons as filling with the integer `0`. -/
def zipFill (xs ys : List (List Char)) : List (List Char × List Char) :=
  (xs ++ List.replicate (ys.length - xs.length) ['0']).zip
    (ys ++ List.replicate (xs.length - ys.length) ['0'])

/-- The comparison loop of `VersionNumber.__eq__` (`src/sl_pkg.py:119-126`)
over the already-zipped segment pairs. -/
def eqPairs : List (List Char × List Char) → Except String Bool
  | [] => .ok true
  | (x, y) :: rest => do
    let m ← pyInt x
    let n ← pyInt y
    if m ≠ n then pure false else eqPairs rest

/-- The comparison loop of `VersionNumber.__lt__` (`src/sl_pkg.py:131-140`). -/
def ltPairs : List (List Char × List Char) → Except String Bool
  | [] => .ok false
  | (x, y) :: rest => do
    let m ← pyInt x
    let n ← pyInt y
    if m < n then pure true else if n < m then pure false else ltPairs rest

/-- The comparison loop of `VersionNumber.__gt__` (`src/sl_pkg.py:145-154`). -/
def gtPairs : List (List Char × List Char) → Except String Bool
  | [] => .ok false
  | (x, y) :: rest => do
    let m ← pyInt x
    let n ← pyInt y
    if n < m then pure true else if m < n then pure false else gtPairs rest

/-- `VersionNumber.__eq__` on two already-constructed version values (the
`_is_compatible` call is a no-op in that case): exact string equality
short-circuits to `True`, otherwise both sides are passed through
`with_only_numbers` (which re-runs `__init__` and can raise), split, and the
segments compared as `int`s with missing segments filled by `0`. -/
def veq (a b : String) : Except String Bool :=
  if a == b then .ok true
  else do
    let a2 ← withOnlyNumbers a
    let b2 ← withOnlyNumbers b
    eqPairs (zipFill (versionSplit a2) (versionSplit b2))

/-- `VersionNumber.__lt__` on two already-constructed version values. -/
def vlt (a b : String) : Except String Bool := do
  let a2 ← withOnlyNumbers a
  let b2 ← withOnlyNumbers b
  ltPairs (zipFill (versionSplit a2) (versionSplit b2))

/-- `VersionNumber.__gt__` on two already-constructed version values. -/
def vgt (a b : String) : Except String Bool := do
  let a2 ← withOnlyNumbers a
  let b2 ← withOnlyNumbers b
  gtPairs (zipFill (versionSplit a2) (versionSplit b2))

/-! ### The tar extraction filter `_sl_pkg_filter` (`src/sl_pkg.py:323-358`) -/

/-- `str.lstrip("./")`: remove every leading character that is `.` or `/`. -/
def lstripDotSlash : List Char → List Char
  | [] => []
  | c :: rest => if c == '.' || c == '/' then lstripDotSlash rest else c :: rest

/-- `re.sub(r"^[^\/]+\/", "", name, count=1)`: if the name starts with one or
more non-slash characters followed by a slash, remove that first component
together with the slash; otherwise leave the name unchanged. -/
def stripFirstComponent (s : List Char) : List Char :=
  let pre := s.takeWhile (fun c => !(c == '/'))
  let post := s.dropWhile (fun c => !(c == '/'))
  if pre.isEmpty then s
  else
    match post with
    | _ :: rest => rest
    | [] => s

/-- The name rewriting done by `_sl_pkg_filter` (`src/sl_pkg.py:325-331`):
a name beginning with `.` or `/` is first `lstrip`ped of those characters,
then the first path component is removed. -/
def filterName (name : List Char) : List Char :=
  let n :=
    match name with
    | c :: _ => if c == '.' || c == '/' then lstripDotSlash name else name
    | [] => name
  stripFirstComponent n

/-- Walk the `/`-separated segments of a relative path, starting at the
extraction destination: `.` and empty segments are neutral, `..` steps up one
directory, anything else steps down. Returns `false` as soon as the walk
climbs above the destination directory. -/
def staysInsideAux : List (List Char) → Nat → Bool
  | [], _ => true
  | seg :: rest, d =>
    if seg == [] || seg == ['.'] then staysInsideAux rest d
    else if seg == ['.', '.'] then
      match d with
      | 0 => false
      | Nat.succ d2 => staysInsideAux rest d2
    else staysInsideAux rest (d + 1)

/-- A relative member name, joined to the extraction destination, resolves to
a path inside the destination directory. -/
def staysInside (rel : List Char) : Bool :=
  staysInsideAux (splitOnPred (fun c => c == '/') rel) 0

/-- Tar member kinds distinguished by `_sl_pkg_filter` via
`isreg`/`islnk`/`isdir`/`issym`; `other` covers the remaining kinds
(character/block devices, FIFOs). -/
inductive MemberKind where
  | reg
  | lnk
  | dir
  | sym
  | other
  deriving DecidableEq

/-- The fields of `tarfile.TarInfo` that `_sl_pkg_filter` reads or writes. -/
structure TarMember where
  name : List Char
  mode : Option Nat
  kind : MemberKind
  uid : Option Nat
  gid : Option Nat
  uname : Option String
  gname : Option String

/-- The mode rewriting of `_sl_pkg_filter` (`src/sl_pkg.py:332-346`).
`mode &= 0o755` keeps only bits inside `0o755`; on a value whose bits lie
inside `0o755`, the subsequent `mode &= ~0o111` is the same as masking with
`0o755 &&& ~0o111 = 0o644`. -/
def filterMode (k : MemberKind) : Option Nat → Option Nat
  | none => none
  | some m =>
    let m1 := m &&& 0o755
    match k with
    | .reg | .lnk =>
      let m2 := if m1 &&& 0o100 = 0 then m1 &&& 0o644 else m1
      some (m2 ||| 0o600)
    | .dir | .sym => none
    | .other => some m1

/-- `_sl_pkg_filter` (`src/sl_pkg.py:323-358`) as a function on members.
The Python builds `new_attrs` and calls `member.replace(**new_attrs)`; only
attributes whose value changed are listed there, so the result is the member
with the name rewritten, the mode rewritten, and all ownership fields
cleared. -/
def slPkgFilter (m : TarMember) : TarMember :=
  { m with
    name := filterName m.name
    mode := filterMode m.kind m.mode
    uid := none
    gid := none
    uname := none
    gname := none }

/-! ### `get_pkginfo` (`src/sl_pkg.py:361-383`)

The function's effects on the per-package cache directory, with the HTTP
response embedded as the status code the code branches on. -/

/-- State of the per-package cache directory `pkg_dir`. -/
inductive DirState where
  | absent
  | emptyDir
  | nonEmptyDir
  deriving DecidableEq

/-- The errors `get_pkginfo` raises: `FileNotFoundError` on a 404 and
`HTTPException` on any other non-200 status. -/
inductive PkgInfoErr where
  | packageNotFound
  | unexpectedStatus (code : Nat)
  deriving DecidableEq

/-- `get_pkginfo`: create `pkg_dir` (`mkdir(0o755, exist_ok=True)`), then
branch on the response status: on 404, `rmdir` the directory (which only
succeeds when the directory is empty; a failure is merely logged) and raise
`FileNotFoundError`; on any other non-200 status raise `HTTPException`;
on 200 write the `PACKAGE` file into the directory. Returns the raised
error or unit, together with the final directory state. -/
def get_pkginfo (d : DirState) (status : Nat) :
    Except PkgInfoErr Unit × DirState :=
  let d1 := match d with
    | .absent => DirState.emptyDir
    | x => x
  if status = 404 then
    let d2 := match d1 with
      | .emptyDir => DirState.absent
      | x => x
    (.error .packageNotFound, d2)
  else if status ≠ 200 then
    (.error (.unexpectedStatus status), d1)
  else
    (.ok (), DirState.nonEmptyDir)

/-! ### The installed-package ledger and `install_pkg`
(`src/sl_pkg.py:196-218`, `639-684`) -/

/-- The key set of the ledger after `put_installed_pkg(pkg)`: the JSON
document is a dict keyed by package name, and `dict.update` replaces an
existing key or appends a new one, so the set of recorded names gains
`pkg`. -/
def putInstalledLedger (pkg : String) (l : List String) : List String :=
  if pkg ∈ l then l else l ++ [pkg]

/-- Outcome of one `install_pkg` run: `failure` is the `RuntimeError` raised
when `do_install` exits non-zero; `success` records whether the `postinst`
phase exited non-zero (which is only logged as a warning). -/
inductive InstallOutcome where
  | failure (code : Int)
  | success (postWarned : Bool)
  deriving DecidableEq

/-- `install_pkg` (`src/sl_pkg.py:639-684`), abstracted over the exit codes
of the `do_install` and `postinst` subprocesses: a non-zero `do_install`
exit raises `RuntimeError` before `put_installed_pkg` runs; otherwise
`postinst` runs, a non-zero exit is logged as a warning only, and
`put_installed_pkg` records the package unconditionally. -/
def install_pkg (pkg : String) (doExit postExit : Int) (l : List String) :
    InstallOutcome × List String :=
  if doExit != 0 then (.failure doExit, l)
  else (.success (postExit != 0), putInstalledLedger pkg l)

/-! ### `install_cmd` (`src/sl_pkg.py:713-750`) -/

/-- One package of an `install` batch, abstracted to whether its build phase
raises (`OSError`/`RuntimeError` from `build_pkg`) and whether its install
phase raises (`OSError`/`RuntimeError` from `install_pkg` before the ledger
write). -/
structure PkgRun where
  name : String
  buildFails : Bool
  installFails : Bool

/-- The per-package loop of `install_cmd` (`src/sl_pkg.py:726-749`), with
`trust_all` inspection assumed to pass. A build failure is fatal unless
`keep_going` (skip to the next package) or `force_install` (fall through to
the install step) is set; an install failure is fatal unless `keep_going`
is set; a successful install records the package in the ledger. -/
def install_cmd (keepGoing forceInstall : Bool) :
    List PkgRun → List String → Except String (List String)
  | [], l => .ok l
  | p :: rest, l =>
    if p.buildFails && !forceInstall then
      if keepGoing then install_cmd keepGoing forceInstall rest l
      else .error ("Failed to build " ++ p.name)
    else if p.installFails then
      if keepGoing then install_cmd keepGoing forceInstall rest l
      else .error ("Failed to install " ++ p.name)
    else install_cmd keepGoing forceInstall rest (putInstalledLedger p.name l)

/-! ### `download_pkg` (`src/sl_pkg.py:421-521`) -/

/-- The package variables `download_pkg` reads through `get_pkgvar`. -/
structure PkgVars where
  name : String
  metapackage : Bool
  version : String
  url : String
  patches : List String

/-- `CACHE_DIR` (`src/sl_pkg.py:47`); `download_pkg` with `is_usr=False`
uses it as `base_path`. -/
def cacheDirS : String := "/tmp/sl-pkg"

/-- The last `/`-separated component of a path or URL string
(`pathlib.Path(...).name` for the strings used here). -/
def lastPathComponent (s : String) : String :=
  String.mk ((splitOnPred (fun c => c == '/') s.data).getLastD [])

/-- `pathlib.Path(s).suffix`: the final `.`-extension of the last component;
empty when the last component has no dot, only a leading dot, or only a
trailing dot. -/
def pathSuffix (s : String) : String :=
  match (lastPathComponent s).data with
  | [] => ""
  | _ :: tail =>
    let segs := splitOnPred (fun c => c == '.') tail
    if segs.length ≤ 1 || segs.getLastD [] == [] then ""
    else String.mk ('.' :: segs.getLastD [])

/-- `download_pkg` with `is_usr=False` (`src/sl_pkg.py:421-521`), returning
the Python return value together with the list of URLs fetched.
`dest` is the caller-supplied destination (already absolute), `destIsDir`
whether it names an existing directory. A metapackage returns `None` before
any fetch. For `VERSION == "git"` the checkout path `<name>-git` is
returned. Otherwise the tarball destination is derived from name, version
and the URL's suffix (note the source's two branches differ: the default
path interpolates `".tar" f".{suffix}"` with an extra dot, the directory
branch `".tar" f"{suffix}"`), the tarball is fetched, and then the patches
loop reuses the variable `dest` for each patch file, so the value returned
at the end is the last patch's path whenever `PATCHES` is non-empty. -/
def download_pkg (p : PkgVars) (dest : Option String) (destIsDir : Bool) :
    Option String × List String :=
  if p.metapackage then (none, [])
  else if p.version == "git" then
    let d := match dest with
      | none => cacheDirS ++ "/" ++ p.name ++ "/" ++ p.name ++ "-git"
      | some d0 => if destIsDir then d0 ++ "/" ++ p.name ++ "-git" else d0
    (some d, [p.url])
  else
    let d := match dest with
      | none => cacheDirS ++ "/" ++ p.name ++ "/" ++ p.name ++ "-"
          ++ p.version ++ ".tar." ++ pathSuffix p.url
      | some d0 =>
        if destIsDir then d0 ++ "/" ++ p.name ++ "-" ++ p.version ++ ".tar"
            ++ pathSuffix p.url
        else d0
    let dFinal := p.patches.foldl
      (fun _ purl => cacheDirS ++ "/" ++ p.name ++ "/" ++ lastPathComponent purl) d
    (some dFinal, p.url :: p.patches)

/-! ### `put_installed_pkg` on an existing ledger file
(`src/sl_pkg.py:212-218`) -/

/-- Python `dict.update({k: v})` on an association list: replace the value
at an existing key, otherwise append the new pair. -/
def dictUpdate {A : Type} (d : List (String × A)) (k : String) (v : A) :
    List (String × A) :=
  if d.any (fun q => q.1 == k) then
    d.map (fun q => if q.1 == k then (k, v) else q)
  else d ++ [(k, v)]

/-- Writing `new` at byte offset 0 of a file holding `old`, without
truncation (`fp.seek(0)` followed by `json.dump(data, fp)` on a file opened
in `"r+"` mode): bytes of `old` beyond the length of `new` survive. -/
def writeAt0NoTrunc (old new : List Char) : List Char :=
  new ++ old.drop new.length

/-- The `else` branch of `put_installed_pkg` (`src/sl_pkg.py:212-218`):
the existing file parses to `oldDoc`, the new record is merged with
`dict.update`, and the serialization (`dumps`, abstract here) is written at
offset 0 of the existing content without truncation. -/
def putInstalledPkgExisting {A : Type} (oldContent : List Char)
    (oldDoc : List (String × A)) (pkg : String) (entry : A)
    (dumps : List (String × A) → List Char) : List Char :=
  writeAt0NoTrunc oldContent (dumps (dictUpdate oldDoc pkg entry))

end SlPkg

namespace SlPkg

/-! ### Claim theorems C1 - C4 -/

/-- C1: the spec says construction succeeds exactly for strings over
lowercase letters, digits, dots and dashes that start with a digit and have
no two consecutive delimiters, rejecting `"1..2"` and `"a1.0"` and accepting
`"1.2-3"`. The code's digit-start check is inverted: `"1.2-3"` is rejected
with the self-contradictory message "Version numbers must start with a
digit.", `"a1.0"` is accepted, and `"1..2"` is rejected only because it
starts with a digit (the double-delimiter check is anchored at the start of
the string). -/
theorem versionInit_inverted_digit_check :
    versionInit "1.2-3" = .error "Version numbers must start with a digit."
    ∧ versionInit "a1.0" = .ok "a1.0"
    ∧ versionInit "1..2" = .error "Version numbers must start with a digit." :=
  ⟨rfl, rfl, rfl⟩

/-- C2: the spec's reference comparison algorithm concludes that `"1.0"`
equals `"1.0.0"` and `"1.2a" < "1.2b"`. On the code, none of these four
version strings can even be constructed: `__init__` raises `ValueError`
("Version numbers must start with a digit.") for every string that starts
with a digit, so the claimed comparisons are unreachable. -/
theorem version_reference_algorithm_unreachable :
    versionInit "1.0" = .error "Version numbers must start with a digit."
    ∧ versionInit "1.0.0" = .error "Version numbers must start with a digit."
    ∧ versionInit "1.2a" = .error "Version numbers must start with a digit."
    ∧ versionInit "1.2b" = .error "Version numbers must start with a digit." :=
  ⟨rfl, rfl, rfl, rfl⟩

/-- C3: the spec says comparison of any two successfully constructed version
values terminates without error. `"a"` and `"b"` are both accepted by
`__init__` (the inverted digit check admits them), but `__eq__` and `__lt__`
raise `ValueError`: `with_only_numbers` turns `"a"` into `".97"`, whose
leading delimiter produces an empty first segment, and `int("")` fails. -/
theorem version_comparison_raises_on_constructed_values :
    versionInit "a" = .ok "a"
    ∧ versionInit "b" = .ok "b"
    ∧ veq "a" "b" = .error "invalid literal for int() with base 10: "
    ∧ vlt "a" "b" = .error "invalid literal for int() with base 10: " :=
  ⟨rfl, rfl, rfl, rfl⟩

set_option maxRecDepth 8192

/-- Bit-level facts about the mode computation of `_sl_pkg_filter` for
regular files and hard links, checked for all 9-bit inputs (the computation
only depends on the low 9 bits of the mode once `mode &= 0o755` has run). -/
theorem filterModeBitsAux : ∀ y : Fin 512,
    ((((if ((y : Nat) &&& 0o755) &&& 0o100 = 0 then ((y : Nat) &&& 0o755) &&& 0o644
        else (y : Nat) &&& 0o755) ||| 0o600) &&& 0o600 = 0o600)
    ∧ ((if ((y : Nat) &&& 0o755) &&& 0o100 = 0 then ((y : Nat) &&& 0o755) &&& 0o644
        else (y : Nat) &&& 0o755) ||| 0o600) ≤ 0o755
    ∧ (((y : Nat) &&& 0o755) &&& 0o100 = 0 →
        ((if ((y : Nat) &&& 0o755) &&& 0o100 = 0 then ((y : Nat) &&& 0o755) &&& 0o644
          else (y : Nat) &&& 0o755) ||| 0o600) &&& 0o111 = 0)
    ∧ (((y : Nat) &&& 0o755) &&& 0o100 ≠ 0 →
        ((if ((y : Nat) &&& 0o755) &&& 0o100 = 0 then ((y : Nat) &&& 0o755) &&& 0o644
          else (y : Nat) &&& 0o755) ||| 0o600) &&& 0o100 = 0o100)) := by
  decide

/-- C4: the spec says the name returned by the extraction filter, joined to
the extraction destination, always resolves inside the destination. The
filter only strips leading `.`/`/` characters and the first path component;
it does not sanitize interior `..` segments, so the member name `a/../../x`
is rewritten to `../../x`, which resolves outside the destination. The
spec's positive example (`pkgname-1.0/src/main.c` becomes `src/main.c`) does
hold. -/
theorem filterName_allows_traversal :
    filterName "a/../../x".data = "../../x".data
    ∧ staysInside "../../x".data = false
    ∧ filterName "pkgname-1.0/src/main.c".data = "src/main.c".data :=
  ⟨rfl, rfl, rfl⟩

/-- The mode claims of C5 stated directly on `filterMode`. -/
theorem filterModeSpec (k : MemberKind) (m0 : Nat) :
    (∀ v, filterMode k (some m0) = some v → v ≤ 0o755)
    ∧ ((k = MemberKind.reg ∨ k = MemberKind.lnk) →
        ∃ v, filterMode k (some m0) = some v
          ∧ (m0 &&& 0o100 = 0 → v &&& 0o111 = 0)
          ∧ (m0 &&& 0o100 ≠ 0 → v &&& 0o100 = 0o100)
          ∧ v &&& 0o600 = 0o600)
    ∧ ((k = MemberKind.dir ∨ k = MemberKind.sym) →
        filterMode k (some m0) = none) := by
  have h100 : (m0 &&& 0o755) &&& 0o100 = m0 &&& 0o100 := by
    rw [Nat.land_assoc, show (0o755 &&& 0o100 : Nat) = 0o100 from by decide]
  have hidem : (m0 &&& 0o755) &&& 0o755 = m0 &&& 0o755 := by
    rw [Nat.land_assoc, show (0o755 &&& 0o755 : Nat) = 0o755 from by decide]
  have hlt : m0 &&& 0o755 < 512 := lt_of_le_of_lt Nat.and_le_right (by norm_num)
  have H := filterModeBitsAux ⟨m0 &&& 0o755, hlt⟩
  simp only [Fin.val_mk, hidem, h100] at H
  cases k
  case reg =>
    refine ⟨?_, ?_, ?_⟩
    · intro v hv
      simp only [filterMode, h100, Option.some.injEq] at hv
      exact hv ▸ H.2.1
    · intro _
      exact ⟨_, by simp only [filterMode, h100], H.2.2.1, H.2.2.2, H.1⟩
    · rintro (hk | hk) <;> exact MemberKind.noConfusion hk
  case lnk =>
    refine ⟨?_, ?_, ?_⟩
    · intro v hv
      simp only [filterMode, h100, Option.some.injEq] at hv
      exact hv ▸ H.2.1
    · intro _
      exact ⟨_, by simp only [filterMode, h100], H.2.2.1, H.2.2.2, H.1⟩
    · rintro (hk | hk) <;> exact MemberKind.noConfusion hk
  case dir =>
    refine ⟨?_, ?_, fun _ => by simp only [filterMode]⟩
    · intro v hv
      simp only [filterMode] at hv
      exact Option.noConfusion hv
    · rintro (hk | hk) <;> exact MemberKind.noConfusion hk
  case sym =>
    refine ⟨?_, ?_, fun _ => by simp only [filterMode]⟩
    · intro v hv
      simp only [filterMode] at hv
      exact Option.noConfusion hv
    · rintro (hk | hk) <;> exact MemberKind.noConfusion hk
  case other =>
    refine ⟨?_, ?_, ?_⟩
    · intro v hv
      simp only [filterMode, Option.some.injEq] at hv
      exact hv ▸ Nat.and_le_right
    · rintro (hk | hk) <;> exact MemberKind.noConfusion hk
    · rintro (hk | hk) <;> exact MemberKind.noConfusion hk

/-- C5: for every member carrying a mode, the filtered mode never exceeds
`0o755`; for regular files and hard links all executable bits are cleared
unless the original owner-executable bit was set (and the owner-executable
bit is kept when it was set), and owner read+write `0o600` is always forced;
for directories and symlinks the filtered mode is `None`; and `uid`, `gid`,
`uname`, `gname` are cleared on every member. -/
theorem sl_pkg_filter_mode_ownership (m : TarMember) (m0 : Nat)
    (hm : m.mode = some m0) :
    (∀ v, (slPkgFilter m).mode = some v → v ≤ 0o755)
    ∧ ((m.kind = MemberKind.reg ∨ m.kind = MemberKind.lnk) →
        ∃ v, (slPkgFilter m).mode = some v
          ∧ (m0 &&& 0o100 = 0 → v &&& 0o111 = 0)
          ∧ (m0 &&& 0o100 ≠ 0 → v &&& 0o100 = 0o100)
          ∧ v &&& 0o600 = 0o600)
    ∧ ((m.kind = MemberKind.dir ∨ m.kind = MemberKind.sym) →
        (slPkgFilter m).mode = none)
    ∧ (slPkgFilter m).uid = none
    ∧ (slPkgFilter m).gid = none
    ∧ (slPkgFilter m).uname = none
    ∧ (slPkgFilter m).gname = none := by
  have hmode : (slPkgFilter m).mode = filterMode m.kind (some m0) := by
    show filterMode m.kind m.mode = _
    rw [hm]
  obtain ⟨F1, F2, F3⟩ := filterModeSpec m.kind m0
  refine ⟨fun v hv => F1 v (hmode ▸ hv), ?_, fun hk => hmode.trans (F3 hk),
    rfl, rfl, rfl, rfl⟩
  intro hk
  rw [hmode]
  exact F2 hk

/-- Witness for C5 at a concrete member: a directory entry with mode
`0o777` has its mode dropped and its ownership cleared. -/
theorem sl_pkg_filter_mode_ownership_witness :
    (slPkgFilter ⟨"d/x".data, some 0o777, MemberKind.dir, some 0, some 0,
        some "root", some "root"⟩).mode = none
    ∧ (slPkgFilter ⟨"d/x".data, some 0o777, MemberKind.dir, some 0, some 0,
        some "root", some "root"⟩).uid = none := by
  have h := sl_pkg_filter_mode_ownership ⟨"d/x".data, some 0o777,
    MemberKind.dir, some 0, some 0, some "root", some "root"⟩ 0o777 rfl
  exact ⟨h.2.2.1 (Or.inl rfl), h.2.2.2.1⟩

/-- Membership in the ledger key set after `put_installed_pkg`. -/
theorem mem_putInstalledLedger (x k : String) (l : List String) :
    x ∈ putInstalledLedger k l ↔ x ∈ l ∨ x = k := by
  unfold putInstalledLedger
  split
  · rename_i h
    exact ⟨Or.inl, fun h2 => h2.elim id (fun hx => hx ▸ h)⟩
  · simp

/-- C6: `get_pkginfo` on a 404 removes the just-created empty per-package
cache directory and fails with `PackageNotFound` (`FileNotFoundError`); any
other non-200 status fails with `UnexpectedStatus` (`HTTPException`).
In particular a nonexistent package leaves no residual empty directory when
the directory did not exist beforehand. -/
theorem get_pkginfo_404_and_non200 (d : DirState) (status : Nat) :
    (status = 404 →
        (get_pkginfo d status).1 = .error PkgInfoErr.packageNotFound
        ∧ (d = DirState.absent → (get_pkginfo d status).2 = DirState.absent))
    ∧ (status ≠ 404 → status ≠ 200 →
        (get_pkginfo d status).1 = .error (PkgInfoErr.unexpectedStatus status)) := by
  constructor
  · rintro rfl
    refine ⟨?_, ?_⟩
    · cases d <;> rfl
    · rintro rfl
      rfl
  · intro h1 h2
    simp [get_pkginfo, h1, h2]

/-- Witness for C6: fetching into an absent directory with a 404 response
raises `PackageNotFound` and leaves the directory absent. -/
theorem get_pkginfo_404_witness :
    (get_pkginfo DirState.absent 404).1 = .error PkgInfoErr.packageNotFound
    ∧ (get_pkginfo DirState.absent 404).2 = DirState.absent := by
  have h := get_pkginfo_404_and_non200 DirState.absent 404
  exact ⟨(h.1 rfl).1, (h.1 rfl).2 rfl⟩

/-- C7: in `install_pkg`, a non-zero `do_install` exit is fatal and writes
no ledger record, while after a successful `do_install` the package is
recorded in the ledger regardless of the `postinst` exit code (a non-zero
`postinst` exit only sets the warning flag). -/
theorem install_pkg_fatality (pkg : String) (dE pE : Int) (l : List String) :
    (dE ≠ 0 → install_pkg pkg dE pE l = (.failure dE, l))
    ∧ (dE = 0 →
        install_pkg pkg dE pE l
          = (.success (pE != 0), putInstalledLedger pkg l)
        ∧ pkg ∈ (install_pkg pkg dE pE l).2) := by
  constructor
  · intro h
    simp [install_pkg, h]
  · rintro rfl
    refine ⟨by simp [install_pkg], ?_⟩
    have hmem := (mem_putInstalledLedger pkg pkg l).mpr (Or.inr rfl)
    simpa [install_pkg] using hmem

/-- Witness for C7: `do_install` exit 1 fails without a ledger write;
`do_install` exit 0 with `postinst` exit 1 still records the package. -/
theorem install_pkg_fatality_witness :
    install_pkg "pkg" 1 0 [] = (.failure 1, [])
    ∧ install_pkg "pkg" 0 1 [] = (.success true, ["pkg"]) := by
  have h1 := (install_pkg_fatality "pkg" 1 0 []).1 (by decide)
  have h2 := ((install_pkg_fatality "pkg" 0 1 []).2 rfl).1
  exact ⟨h1, h2⟩

/-- C8: running the `install_cmd` loop with `keep_going` and without
`force_install` on a batch `[A, B]` where `A`'s build fails and `B` builds
and installs successfully continues past `A`; afterwards `B` is in the
ledger and `A` is not. -/
theorem install_cmd_keep_going (A B : PkgRun) (l : List String)
    (hA : A.buildFails = true) (hB : B.buildFails = false)
    (hBi : B.installFails = false) (hAl : A.name ∉ l)
    (hAB : A.name ≠ B.name) :
    install_cmd true false [A, B] l = .ok (putInstalledLedger B.name l)
    ∧ B.name ∈ putInstalledLedger B.name l
    ∧ A.name ∉ putInstalledLedger B.name l := by
  refine ⟨?_, (mem_putInstalledLedger _ _ _).mpr (Or.inr rfl), ?_⟩
  · simp [install_cmd, hA, hB, hBi]
  · intro hmem
    rcases (mem_putInstalledLedger _ _ _).mp hmem with h | h
    · exact hAl h
    · exact hAB h

/-- Witness for C8 on a concrete batch. -/
theorem install_cmd_keep_going_witness :
    install_cmd true false [⟨"a", true, false⟩, ⟨"b", false, false⟩] []
      = .ok (putInstalledLedger "b" [])
    ∧ "b" ∈ putInstalledLedger "b" []
    ∧ "a" ∉ putInstalledLedger "b" [] :=
  install_cmd_keep_going ⟨"a", true, false⟩ ⟨"b", false, false⟩ []
    rfl rfl rfl (by simp) (by decide)

/-- C9: the spec says `download_pkg` returns the downloaded tarball path for
non-git packages (and `None`, with no download, for metapackages). The
metapackage part holds, but when `PATCHES` is non-empty the `dest` variable
is reused by the patch loop, so the function returns the last patch's path
instead of the tarball path. -/
theorem download_pkg_return_value_cex :
    download_pkg ⟨"foo", false, "1.0", "http://m/foo-1.0.tar.gz",
        ["http://m/fix.patch"]⟩ none false
      = (some "/tmp/sl-pkg/foo/fix.patch",
          ["http://m/foo-1.0.tar.gz", "http://m/fix.patch"])
    ∧ download_pkg ⟨"foo", false, "1.0", "http://m/foo-1.0.tar.gz", []⟩
        none false
      = (some "/tmp/sl-pkg/foo/foo-1.0.tar..gz", ["http://m/foo-1.0.tar.gz"])
    ∧ ("/tmp/sl-pkg/foo/fix.patch" : String) ≠ "/tmp/sl-pkg/foo/foo-1.0.tar..gz"
    ∧ download_pkg ⟨"meta", true, "0", "http://m/x.tar.gz",
        ["http://m/p.patch"]⟩ none false = (none, []) :=
  ⟨rfl, rfl, by decide, rfl⟩

/-- Keys of the merged ledger document: updating an existing key replaces
its value and does not append. -/
theorem dictUpdate_keys {A : Type} (d : List (String × A)) (k : String)
    (v : A) (h : d.any (fun q => q.1 == k) = true) :
    (dictUpdate d k v).map Prod.fst = d.map Prod.fst := by
  unfold dictUpdate
  rw [if_pos h]
  clear h
  induction d with
  | nil => rfl
  | cons q qs ih =>
    simp only [List.map_cons, ih]
    cases hq : (q.1 == k)
    · simp [hq]
    · simp [hq, eq_of_beq hq]

/-- C10: on an existing ledger file, `put_installed_pkg` writes the merged,
key-replacing document at byte offset 0 without truncating: the file equals
the new serialization exactly when the new serialization is at least as
long as the previous content, and all previous bytes beyond the new
document's length survive. -/
theorem put_installed_pkg_no_truncate {A : Type} (old : List Char)
    (doc : List (String × A)) (pkg : String) (entry : A)
    (dumps : List (String × A) → List Char) :
    putInstalledPkgExisting old doc pkg entry dumps
      = dumps (dictUpdate doc pkg entry)
        ++ old.drop (dumps (dictUpdate doc pkg entry)).length
    ∧ (old.length ≤ (dumps (dictUpdate doc pkg entry)).length →
        putInstalledPkgExisting old doc pkg entry dumps
          = dumps (dictUpdate doc pkg entry))
    ∧ (putInstalledPkgExisting old doc pkg entry dumps).drop
          (dumps (dictUpdate doc pkg entry)).length
        = old.drop (dumps (dictUpdate doc pkg entry)).length
    ∧ (doc.any (fun q => q.1 == pkg) = true →
        (dictUpdate doc pkg entry).map Prod.fst = doc.map Prod.fst) := by
  refine ⟨rfl, ?_, List.drop_left _ _, dictUpdate_keys doc pkg entry⟩
  intro h
  show writeAt0NoTrunc old _ = _
  unfold writeAt0NoTrunc
  rw [List.drop_eq_nil_of_le h, List.append_nil]

/-- Witness for C10: with a 12-byte new serialization over a 10-byte old
file the result is exactly the new serialization. -/
theorem put_installed_pkg_no_truncate_witness :
    putInstalledPkgExisting "0123456789".data [("a", 1)] "a" 2
      (fun _ => "ABCDEFGHIJKL".data) = "ABCDEFGHIJKL".data :=
  (put_installed_pkg_no_truncate "0123456789".data [("a", 1)] "a" 2
    (fun _ => "ABCDEFGHIJKL".data)).2.1 (by decide)

end SlPkg
